import Mathlib

/-!
Verification development for the kinesis-to-firehose worker.

The Go sources are translated into a shallow embedding:

* `batcher/message_batcher.go` — the message batcher (`AddMessage`,
  `updateSequenceNumbers`, `flush`, `startBatcher`) becomes a pure state
  machine `BState` with a step function `batcherStep` driven by the three
  select events (timer, explicit flush request, message arrival), together
  with the writer-side `SendBatch` bookkeeping (`largestSeqFlushed`).
  Delivered batches are accumulated in a `sent` log instead of performing
  I/O; Go `*big.Int` sequence numbers become `Option Int` (`none` = nil
  pointer) and `int` subsequence numbers become `Int`.
* `writer/firehose_writer.go` — the checkpoint phase of `ProcessRecords`
  and `Shutdown`.
* `sender/firehose_sender.go` — `SendBatch` retry loop, the sampling policy
  `calcDropLogProbability`, and the Elasticsearch ignore rules of
  `ProcessMessage`.
* the older revisions kept in the repository (`FirehoseWriter.checkpoint`,
  `RecordProcessor.checkpoint`, `RecordProcessor.Shutdown`) are embedded
  separately where a claim refers to them.
-/

/-- A sequence pair as tracked by the batcher: Go `*big.Int` is `Option Int`
(`none` being the nil pointer) and the `int` subsequence number is `Int`. -/
structure SeqTrack where
  seq : Option Int
  sub : Int
deriving DecidableEq, Repr

/-- One call of the sink `Sync.SendBatch(batch, largestSeq, largestSubSeq)`
recorded in the delivery log. -/
structure SentBatch where
  items : List (List Nat)
  seq : Option Int
  sub : Int
deriving DecidableEq, Repr

/-- State of the batcher goroutine plus the writer fields it feeds
(`largestSeqFlushed`, `largestSubSeqFlushed` of `FirehoseWriter`), with the
delivery log `sent` standing in for the Firehose sink.  Payloads are byte
lists. -/
structure BState where
  flushCount : Nat
  flushSize : Nat
  batch : List (List Nat)
  largestSeq : Option Int
  largestSubSeq : Int
  smallestSeq : Option Int
  smallestSubSeq : Int
  largestSeqFlushed : Option Int
  largestSubSeqFlushed : Int
  sent : List SentBatch
deriving DecidableEq, Repr

/-- Total payload size of a batch, as `batchSize` in the source: the sum of
`len(msg)` over the slice. -/
def batchSize (batch : List (List Nat)) : Nat :=
  batch.foldl (fun total msg => total + msg.length) 0

/-- The `isLarger` test of `updateSequenceNumbers`: the largest pair is
replaced when no pair is recorded yet, the new seq is greater, or the seq is
equal and the new subseq is greater. -/
def isLargerPair (curSeq : Option Int) (curSub : Int) (n : Int) (sub : Int) : Bool :=
  match curSeq with
  | none => true
  | some c => n > c || (n = c && sub > curSub)

/-- The `isSmaller` test of `updateSequenceNumbers`. -/
def isSmallerPair (curSeq : Option Int) (curSub : Int) (n : Int) (sub : Int) : Bool :=
  match curSeq with
  | none => true
  | some c => n < c || (n = c && sub < curSub)

/-- `batcher.updateSequenceNumbers`: update the tracked largest and smallest
pair after a successful parse. -/
def updateSequenceNumbers (s : BState) (n : Int) (sub : Int) : BState :=
  let s1 :=
    if isLargerPair s.largestSeq s.largestSubSeq n sub then
      { s with largestSeq := some n, largestSubSeq := sub }
    else s
  if isSmallerPair s1.smallestSeq s1.smallestSubSeq n sub then
    { s1 with smallestSeq := some n, smallestSubSeq := sub }
  else s1

/-- `batcher.flush` combined with the writer's `SendBatch`: when the batch is
non-empty it is handed to the sink together with the current largest pair
(appended to `sent`), the writer records that pair in
`largestSeqFlushed`/`largestSubSeqFlushed`, and the batcher resets
`smallestSeq` to nil; the returned batch is empty.  An empty batch is a
no-op. -/
def flush (s : BState) : BState :=
  if s.batch = [] then s
  else
    { s with
      sent := s.sent ++ [⟨s.batch, s.largestSeq, s.largestSubSeq⟩]
      largestSeqFlushed := s.largestSeq
      largestSubSeqFlushed := s.largestSubSeq
      smallestSeq := none
      batch := [] }

/-- The three events the `startBatcher` select loop reacts to. -/
inductive BEvent
  | timer
  | flushReq
  | arrive (msg : List Nat) (seq : Int) (sub : Int)
deriving DecidableEq, Repr

/-- The message-arrival case of the `startBatcher` select loop: flush first
when appending would exceed `flushSize`, append, update the tracked pairs,
then flush again when the count or size trigger fires. -/
def arriveStep (s : BState) (msg : List Nat) (n sub : Int) : BState :=
  let s1 := if s.flushSize < batchSize s.batch + msg.length then flush s else s
  let s2 := { s1 with batch := s1.batch ++ [msg] }
  let s3 := updateSequenceNumbers s2 n sub
  if s3.flushCount ≤ s3.batch.length || s3.flushSize ≤ batchSize s3.batch then
    flush s3
  else s3

/-- One iteration of the `startBatcher` select loop. -/
def batcherStep (s : BState) (e : BEvent) : BState :=
  match e with
  | .timer => flush s
  | .flushReq => flush s
  | .arrive msg n sub => arriveStep s msg n sub

/-- The batcher state right after `New`: empty batch, nil sequence pointers,
nothing sent. -/
def initBState (flushCount flushSize : Nat) : BState :=
  { flushCount := flushCount
    flushSize := flushSize
    batch := []
    largestSeq := none
    largestSubSeq := 0
    smallestSeq := none
    smallestSubSeq := 0
    largestSeqFlushed := none
    largestSubSeqFlushed := 0
    sent := [] }

/-- Run the batcher loop from the initial state over a list of events. -/
def runBatcher (flushCount flushSize : Nat) (evs : List BEvent) : BState :=
  evs.foldl batcherStep (initBState flushCount flushSize)

/-- Capacity of the internal message channel, from
`msgChan := make(chan msgPack, 100)` in `batcher.New`. -/
def msgChanCapacity : Nat := 100

/-- A parsed message pack as carried on the batcher channel. -/
structure MsgPack where
  msg : List Nat
  seqNumBig : Int
  subSeqNum : Int
deriving DecidableEq, Repr

/-- Strict base-10 parse of a sequence number, as Go
`new(big.Int).SetString(s, 10)`: an optional sign followed by at least one
ASCII digit, consuming the whole string. -/
def parseBigInt (s : String) : Option Int :=
  match s.toList with
  | [] => none
  | c :: rest =>
    let neg := c = '-'
    let digits := if c = '-' || c = '+' then rest else c :: rest
    if digits = [] || !(digits.all Char.isDigit) then none
    else
      let v : Int :=
        digits.foldl (fun acc d => acc * 10 + (Int.ofNat (d.toNat - '0'.toNat))) 0
      some (if neg then -v else v)

/-- The validation errors `batcher.AddMessage` can return. -/
inductive AddMessageError
  | emptyMessage
  | badSequenceNumber
deriving DecidableEq, Repr

/-- `batcher.AddMessage`: reject an empty payload or an unparseable sequence
number before anything reaches the channel; otherwise enqueue the parsed
pack onto the channel (modelled as the queue `q`).  The second component is
the returned error, `none` on success. -/
def addMessage (q : List MsgPack) (msg : List Nat) (sequenceNumber : String)
    (subSequenceNumber : Int) : List MsgPack × Option AddMessageError :=
  if msg.length ≤ 0 then (q, some .emptyMessage)
  else
    match parseBigInt sequenceNumber with
    | none => (q, some .badSequenceNumber)
    | some n => (q ++ [⟨msg, n, subSequenceNumber⟩], none)

/-- `AddMessage` runs on the caller's goroutine and only validates and
enqueues: it never touches the batcher state (batch, tracked pairs, sink).
The pair returned is the unchanged batcher state together with the queue
action of `addMessage`. -/
def sysAddMessage (s : BState) (q : List MsgPack) (msg : List Nat)
    (sequenceNumber : String) (subSequenceNumber : Int) :
    BState × List MsgPack × Option AddMessageError :=
  (s, addMessage q msg sequenceNumber subSequenceNumber)

/-- Lexicographic "less-or-equal" on tracked pairs, with a nil sequence
pointer as bottom: this is the order in which checkpoints may advance. -/
def pairLeB : Option Int × Int → Option Int × Int → Bool
  | (none, _), _ => true
  | (some _, _), (none, _) => false
  | (some a, x), (some b, y) => a < b || (a = b && x ≤ y)

/-- Strict lexicographic order on tracked pairs (nil pointer as bottom). -/
def pairLtB : Option Int × Int → Option Int × Int → Bool
  | (none, _), (some _, _) => true
  | (none, _), (none, _) => false
  | (some _, _), (none, _) => false
  | (some a, x), (some b, y) => a < b || (a = b && x < y)

/-- A checkpoint request as handed to the KCL checkpointer: the sequence
number string and the subsequence number. -/
structure CheckpointCall where
  seqStr : String
  subSeq : Int
deriving DecidableEq, Repr

/-- Go formatting of a possibly-nil `*big.Int`: calling `String()` through a
nil pointer prints `<nil>`, otherwise the decimal representation. -/
def bigIntStr : Option Int → String
  | none => "<nil>"
  | some n => toString n

/-- Observable outcome of one `FirehoseWriter.ProcessRecords` call: counter
increments and the checkpoint call made, if any.  `elapsed` stands for
`time.Now().Sub(f.lastCheckpoint) > f.checkpointFreq` and `recordOk` for the
per-record success of `processRecord`; the Go function always returns nil,
so the outcome has no error component. -/
structure ProcessRecordsOutcome where
  recvInc : Nat
  failedInc : Nat
  call : Option CheckpointCall
deriving DecidableEq, Repr

/-- The checkpoint phase of `FirehoseWriter.ProcessRecords`: after counting
the records, checkpoint whenever the checkpoint frequency has elapsed,
passing `f.largestSeqFlushed.String()` and `f.largestSubSeqFlushed` — with
no test that a largest-flushed value exists. -/
def processRecordsModel (recordOk : List Bool) (elapsed : Bool)
    (largestSeqFlushed : Option Int) (largestSubSeqFlushed : Int) :
    ProcessRecordsOutcome :=
  { recvInc := recordOk.length
    failedInc := (recordOk.filter (fun b => !b)).length
    call := if elapsed then
        some ⟨bigIntStr largestSeqFlushed, largestSubSeqFlushed⟩
      else none }

/-- Externally visible actions a shutdown handler can take. -/
inductive HostAction
  | flushBatcher
  | checkpointShutdown
  | checkpointSeq (seqStr : String) (sub : Int)
  | sleepSeconds (n : Nat)
deriving DecidableEq, Repr

/-- `FirehoseWriter.Shutdown` (writer/firehose_writer.go): on `TERMINATE`,
flush the batcher then finalize through `checkpointer.Shutdown()` — a
checkpoint call with no sequence arguments; for any other reason do
neither. -/
def writerShutdown (reason : String) : List HostAction :=
  if reason = "TERMINATE" then
    [HostAction.flushBatcher, HostAction.checkpointShutdown]
  else []

/-- `RecordProcessor.Shutdown` of the older revision (src/unnamed/part_002):
flush, wait five seconds, then checkpoint with the tracked largest pair,
regardless of the reason. -/
def rpShutdown (largestSeq : Option Int) (largestSubSeq : Int)
    (reason : String) : List HostAction :=
  [HostAction.flushBatcher, HostAction.sleepSeconds 5,
    HostAction.checkpointSeq (bigIntStr largestSeq) largestSubSeq]

/-- The typed checkpoint errors the KCL host can return, matching the
strings `kcl.CheckpointError.Error()` is switched on. -/
inductive CPErr
  | shutdownExc
  | throttlingExc
  | invalidStateExc
  | otherExc (msg : String)
deriving DecidableEq, Repr

/-- Trace of one run of a checkpoint retry routine: how many times the host
checkpointer was invoked, how many sleeps happened, and whether the
giving-up message was logged.  Neither revision returns an error. -/
structure CPTrace where
  attempts : Nat
  sleeps : Nat
  gaveUp : Bool
deriving DecidableEq, Repr

/-- Loop of `RecordProcessor.checkpoint` (the src/main.go revision):
`for n := 0; n < checkpointRetries; n++`, returning immediately on success
or ShutdownException, logging "giving up" and returning when the last
attempt (`n == checkpointRetries-1`) fails, and sleeping between attempts.
`results n` is the host's answer to the (n+1)-th attempt (`none` =
success); `k` is the remaining iteration count `retries - n`. -/
def rpCheckpointGo (results : Nat → Option CPErr) (retries : Nat) :
    Nat → Nat → CPTrace
  | 0, _ => ⟨0, 0, false⟩
  | k + 1, n =>
    match results n with
    | none => ⟨1, 0, false⟩
    | some CPErr.shutdownExc => ⟨1, 0, false⟩
    | some _ =>
      if n = retries - 1 then ⟨1, 0, true⟩
      else
        let t := rpCheckpointGo results retries k (n + 1)
        ⟨t.attempts + 1, t.sleeps + 1, t.gaveUp⟩

/-- `RecordProcessor.checkpoint` as a trace function. -/
def rpCheckpoint (results : Nat → Option CPErr) (retries : Nat) : CPTrace :=
  rpCheckpointGo results retries retries 0

/-- Loop of the older `FirehoseWriter.checkpoint` (src/unnamed/part_000):
`for n := -1; n < checkpointRetries; n++` with the giving-up branch guarded
by `n == checkpointRetries`, a value no iteration reaches; `i = n + 1` is
the zero-based iteration index and `k` the remaining iteration count. -/
def fwCheckpointGo (results : Nat → Option CPErr) (retries : Nat) :
    Nat → Nat → CPTrace
  | 0, _ => ⟨0, 0, false⟩
  | k + 1, i =>
    match results i with
    | none => ⟨1, 0, false⟩
    | some CPErr.shutdownExc => ⟨1, 0, false⟩
    | some _ =>
      if (i : Int) - 1 = (retries : Int) then ⟨1, 0, true⟩
      else
        let t := fwCheckpointGo results retries k (i + 1)
        ⟨t.attempts + 1, t.sleeps + 1, t.gaveUp⟩

/-- The older `FirehoseWriter.checkpoint` as a trace function: the loop
starts at `n = -1`, so it runs `checkpointRetries + 1` iterations. -/
def fwCheckpoint (results : Nat → Option CPErr) (retries : Nat) : CPTrace :=
  fwCheckpointGo results retries (retries + 1) 0

/-- `checkpointRetries` as set by every constructor in the repository. -/
def checkpointRetries : Nat := 5

/-- A checkpointer whose every attempt fails with a retryable error. -/
def alwaysFailCP : Nat → Option CPErr := fun _ => some (CPErr.otherExc "boom")

/-- A `PutRecordBatchOutput`: the failed-put count and the per-item
responses.  `none` is a nil entry pointer, `some none` an entry whose
`ErrorMessage` is nil, and `some (some msg)` an entry carrying `msg`. -/
structure SinkResp where
  failedPutCount : Nat
  responses : List (Option (Option String))
deriving DecidableEq, Repr

/-- Result of `FirehoseSender.SendBatch`: success, a catastrophic transport
error, or the partial-send error raised after too many retries, carrying
the items that were collected for the final reissue. -/
inductive SBResult
  | ok
  | catastrophic (msg : String)
  | stillFailed (items : List (List Nat))
  | outOfFuel
deriving DecidableEq, Repr

/-- An item response counts as failed when the entry is non-nil and carries
a non-empty error message. -/
def entryFailed : Option (Option String) → Bool
  | some (some m) => !(m = "")
  | _ => false

/-- Collect the retry set: the items whose response entry failed, in
original order.  As in the source, index `idx` is always interpreted
against the original `batch` argument even on later retries (an
out-of-range index, which would panic in Go, is dropped here). -/
def collectRetryLogs (batch : List (List Nat))
    (responses : List (Option (Option String))) : List (List Nat) :=
  responses.enum.filterMap fun p =>
    if entryFailed p.2 then batch.get? p.1 else none

/-- The retry loop of `SendBatch`: while `FailedPutCount != 0`, sleep
`delay` ms, collect the failed items, reissue (`oracle k` is the outcome of
the (k+1)-th `sendRecords` call), return the partial error if the check
`retries > 4` fires, else bump `retries`, double `delay` and loop.  The
loop runs at most seven iterations, so any fuel of at least 7 gives the
exact semantics and `outOfFuel` is unreachable from `sendBatchModel`.  The
trace accumulates the sleeps (ms) and counts `sendRecords` calls. -/
def sendBatchLoop (oracle : Nat → Except String SinkResp)
    (batch : List (List Nat)) :
    Nat → Nat → Nat → Nat → SinkResp → List Nat → SBResult × List Nat × Nat
  | 0, sendCount, _, _, _, sleeps => (SBResult.outOfFuel, sleeps, sendCount)
  | fuel + 1, sendCount, retries, delay, res, sleeps =>
    if res.failedPutCount = 0 then (SBResult.ok, sleeps, sendCount)
    else
      let sleeps2 := sleeps ++ [delay]
      let retryLogs := collectRetryLogs batch res.responses
      match oracle sendCount with
      | Except.error e => (SBResult.catastrophic e, sleeps2, sendCount + 1)
      | Except.ok res2 =>
        if retries > 4 then
          (SBResult.stillFailed retryLogs, sleeps2, sendCount + 1)
        else
          sendBatchLoop oracle batch fuel (sendCount + 1) (retries + 1)
            (delay * 2) res2 sleeps2

/-- `FirehoseSender.SendBatch`: the initial `sendRecords`, then the retry
loop with `retries = 0` and `delay = 250`. -/
def sendBatchModel (oracle : Nat → Except String SinkResp)
    (batch : List (List Nat)) : SBResult × List Nat × Nat :=
  match oracle 0 with
  | Except.error e => (SBResult.catastrophic e, [], 1)
  | Except.ok res => sendBatchLoop oracle batch 8 1 0 250 res []

/-- An oracle whose every response reports one failed item, with an error
message on its single entry. -/
def alwaysFailOracle : Nat → Except String SinkResp :=
  fun _ => Except.ok ⟨1, [some (some "boom")]⟩

/-- Contiguous containment of `needle` in `haystack`, as Go
`strings.Contains`. -/
def listContains (needle : List Char) : List Char → Bool
  | [] => needle.isEmpty
  | c :: rest => List.isPrefixOf needle (c :: rest) || listContains needle rest

/-- Case-insensitive containment of "panic" or "err" in the raw log, as
`strings.Contains(strings.ToLower(raw), ...)` (lower-casing applied
character by character). -/
def rawPromotes (raw : String) : Bool :=
  listContains "panic".toList (raw.toList.map Char.toLower) ||
  listContains "err".toList (raw.toList.map Char.toLower)

/-- The half-drop delay selected by the switch in `calcDropLogProbability`:
trace 600, info 3600, warning 7200, error 14400; "debug" and — through the
default case falling through to "debug" — every other level: 1800.
(The "critical" case returns 0 before this table is consulted.) -/
noncomputable def halfDroppedFor (level : String) : ℝ :=
  if level = "trace" then 600
  else if level = "info" then 3600
  else if level = "warning" then 7200
  else if level = "error" then 14400
  else 1800

/-- `calcDropLogProbability` (sender/firehose_sender.go) over the reals:
`ageSeconds` is `time.Since(fields["timestamp"]).Seconds()`, `level` is
`fields["level"]` when it is a string, `rawlog` is the raw log text.  A
non-positive delay (age at most 120 s) yields 0; an empty level is promoted
to critical when the raw text contains panic/err, else treated as debug;
critical returns 0; otherwise `1 - 2^(-(delay/halfDropped))`. -/
noncomputable def calcDropLogProbability (ageSeconds : ℝ) (level : Option String)
    (rawlog : String) : ℝ :=
  let delay := ageSeconds - 120
  if delay ≤ 0 then 0
  else
    let lvl0 := match level with
      | some l => l
      | none => ""
    let lvl := if lvl0 = "" then
        (if rawPromotes rawlog then "critical" else "debug")
      else lvl0
    if lvl = "critical" then 0
    else 1 - (2 : ℝ) ^ (-(delay / halfDroppedFor lvl))

/-- Half-drop table exactly as the claim words it: 600 for trace, 1800 for
debug and unknown levels, 3600 for info, 7200 for warning, 14400 for
error. -/
noncomputable def claimHalfDrop (level : String) : ℝ :=
  if level = "trace" then 600
  else if level = "debug" then 1800
  else if level = "info" then 3600
  else if level = "warning" then 7200
  else if level = "error" then 14400
  else 1800

/-- Drop probability exactly as claim C9 words it: 0 when the age is at most
120 s or the level is critical, where a message with NO string level is
treated as debug unless its raw text contains panic or err (then promoted
to critical); otherwise `1 - 2^(-(age-120)/halfDrop)`. -/
noncomputable def claimDropProbability (ageSeconds : ℝ) (level : Option String)
    (rawlog : String) : ℝ :=
  let effLevel := match level with
    | none => if rawPromotes rawlog then "critical" else "debug"
    | some l => l
  if ageSeconds ≤ 120 ∨ effLevel = "critical" then 0
  else 1 - (2 : ℝ) ^ (-((ageSeconds - 120) / claimHalfDrop effLevel))

/-- The amended drop probability: as the claim, except that a level that is
present but equal to the EMPTY string is also treated as unknown (promoted
to critical on panic/err in the raw text, else debug), matching the code's
`level == ""` test. -/
noncomputable def amendedDropProbability (ageSeconds : ℝ) (level : Option String)
    (rawlog : String) : ℝ :=
  let effLevel := match level with
    | none => if rawPromotes rawlog then "critical" else "debug"
    | some l =>
      if l = "" then (if rawPromotes rawlog then "critical" else "debug") else l
  if ageSeconds ≤ 120 ∨ effLevel = "critical" then 0
  else 1 - (2 : ℝ) ^ (-((ageSeconds - 120) / claimHalfDrop effLevel))

/-- A dynamically typed value in the decoded fields map: a string, or some
non-string value. -/
inductive GoVal
  | str (s : String)
  | nonStr
deriving DecidableEq, Repr

/-- The decoded fields consulted by the Elasticsearch ignore rules; `none`
means the key is absent (a nil interface in Go). -/
structure ESFields where
  containerApp : Option GoVal
  decoderMsgType : Option GoVal
  rawlog : Option GoVal
deriving DecidableEq, Repr

/-- Result of the two ignore rules; `typeAssertPanic` marks the Go type
assertions `.(string)` failing on a non-string, non-nil value. -/
inductive ESCheck
  | ignoredHaproxy
  | ignoredKinesis
  | typeAssertPanic
  | passed
deriving DecidableEq, Repr

/-- The two Elasticsearch ignore rules of `ProcessMessage`, in source order
and with Go's left-to-right short-circuit evaluation: (1) container_app
equals "haproxy-logs" and decoder_msg_type is not "Kayvee"; (2) both
container_app and rawlog are non-nil, container_app (asserted to string)
starts with "kinesis-", and rawlog (asserted to string) starts with the
SEVERE prefix. -/
def esIgnoreCheck (f : ESFields) : ESCheck :=
  if f.containerApp = some (GoVal.str "haproxy-logs") ∧
      f.decoderMsgType ≠ some (GoVal.str "Kayvee") then
    ESCheck.ignoredHaproxy
  else if f.containerApp ≠ none ∧ f.rawlog ≠ none then
    match f.containerApp with
    | some (GoVal.str ca) =>
      if String.isPrefixOf "kinesis-" ca then
        match f.rawlog with
        | some (GoVal.str r) =>
          if String.isPrefixOf "SEVERE: Received error line from subprocess" r then
            ESCheck.ignoredKinesis
          else ESCheck.passed
        | _ => ESCheck.typeAssertPanic
      else ESCheck.passed
    | some GoVal.nonStr => ESCheck.typeAssertPanic
    | none => ESCheck.passed
  else ESCheck.passed

/-- Outcome of `FirehoseSender.ProcessMessage` for one input line. -/
inductive PMOutcome
  | decodeFailed
  | ignoredHaproxy
  | ignoredKinesis
  | typeAssertPanic
  | sampledOut
  | forwarded
deriving DecidableEq, Repr

/-- `ProcessMessage` control flow: decode, then — for Elasticsearch
consumers only — the two ignore rules followed by the probabilistic
sampling drop; `dropped` stands for
`rand.Float64() < calcDropLogProbability(fields)`. -/
def processMessageES (isElasticsearch : Bool) (decodeResult : Option ESFields)
    (dropped : Bool) : PMOutcome :=
  match decodeResult with
  | none => PMOutcome.decodeFailed
  | some f =>
    if isElasticsearch then
      match esIgnoreCheck f with
      | ESCheck.ignoredHaproxy => PMOutcome.ignoredHaproxy
      | ESCheck.ignoredKinesis => PMOutcome.ignoredKinesis
      | ESCheck.typeAssertPanic => PMOutcome.typeAssertPanic
      | ESCheck.passed =>
        if dropped then PMOutcome.sampledOut else PMOutcome.forwarded
    else PMOutcome.forwarded

/-- The sequence-tracking invariant of the batcher/writer pair: the
largest-flushed pair never exceeds the tracked largest pair, every delivered
batch was tagged with a pair at most the tracked largest, and the delivery
log is tagged in non-decreasing order. -/
def GoodB (s : BState) : Prop :=
  pairLeB (s.largestSeqFlushed, s.largestSubSeqFlushed)
      (s.largestSeq, s.largestSubSeq) = true ∧
  (∀ b ∈ s.sent,
    pairLeB (b.seq, b.sub) (s.largestSeq, s.largestSubSeq) = true) ∧
  List.Chain' (fun a b => pairLeB (a.seq, a.sub) (b.seq, b.sub) = true) s.sent

/-- A batch as the sink is allowed to see it: within the count and size
limits, except that a single item may on its own exceed the size limit. -/
def deliveredOk (fc fs : Nat) (b : SentBatch) : Prop :=
  (b.items.length ≤ fc ∧ batchSize b.items ≤ fs) ∨
  (∃ m, b.items = [m] ∧ fs < m.length)

/-- The standing (not yet flushed) batch is strictly inside both limits. -/
def standingOk (s : BState) : Prop :=
  s.batch.length < s.flushCount ∧ batchSize s.batch < s.flushSize

/-- The size invariant for claim C4: the configuration is the given one, the
standing batch is strictly inside both limits, and every delivered batch is
within the limits save for an oversized singleton. -/
def C4Inv (fc fs : Nat) (s : BState) : Prop :=
  s.flushCount = fc ∧ s.flushSize = fs ∧
  s.batch.length < fc ∧ batchSize s.batch < fs ∧
  ∀ b ∈ s.sent, deliveredOk fc fs b

/-- Every batch handed to the sink is non-empty. -/
def sentNonempty (s : BState) : Prop :=
  ∀ b ∈ s.sent, b.items ≠ []

theorem pairLeB_refl (p : Option Int × Int) : pairLeB p p = true := by
  rcases p with ⟨s, x⟩
  cases s <;> simp [pairLeB]

theorem pairLeB_trans {a b c : Option Int × Int}
    (hab : pairLeB a b = true) (hbc : pairLeB b c = true) : pairLeB a c = true := by
  rcases a with ⟨sa, xa⟩
  rcases b with ⟨sb, xb⟩
  rcases c with ⟨sc, xc⟩
  cases sa with
  | none => simp [pairLeB]
  | some va =>
    cases sb with
    | none => simp [pairLeB] at hab
    | some vb =>
      cases sc with
      | none => simp [pairLeB] at hbc
      | some vc =>
        simp only [pairLeB, Bool.or_eq_true, decide_eq_true_eq,
          Bool.and_eq_true] at hab hbc ⊢
        rcases hab with h1 | ⟨h1, h2⟩ <;> rcases hbc with h3 | ⟨h3, h4⟩
        · exact Or.inl (lt_trans h1 h3)
        · exact Or.inl (h3 ▸ h1)
        · exact Or.inl (h1 ▸ h3)
        · exact Or.inr ⟨h1.trans h3, le_trans h2 h4⟩

theorem update_largest_fields (s : BState) (n sub : Int) :
    ((updateSequenceNumbers s n sub).largestSeq,
      (updateSequenceNumbers s n sub).largestSubSeq) =
    (if isLargerPair s.largestSeq s.largestSubSeq n sub then ((some n : Option Int), sub)
     else (s.largestSeq, s.largestSubSeq)) := by
  by_cases h : isLargerPair s.largestSeq s.largestSubSeq n sub = true
  · simp only [updateSequenceNumbers, h, if_true]
    split <;> simp
  · have h2 : isLargerPair s.largestSeq s.largestSubSeq n sub = false := by
      simpa using h
    simp only [updateSequenceNumbers, h2, Bool.false_eq_true, if_false]
    split <;> simp

theorem update_untouched_fields (s : BState) (n sub : Int) :
    (updateSequenceNumbers s n sub).largestSeqFlushed = s.largestSeqFlushed ∧
    (updateSequenceNumbers s n sub).largestSubSeqFlushed = s.largestSubSeqFlushed ∧
    (updateSequenceNumbers s n sub).sent = s.sent ∧
    (updateSequenceNumbers s n sub).batch = s.batch ∧
    (updateSequenceNumbers s n sub).flushCount = s.flushCount ∧
    (updateSequenceNumbers s n sub).flushSize = s.flushSize := by
  by_cases h : isLargerPair s.largestSeq s.largestSubSeq n sub = true
  · simp only [updateSequenceNumbers, h, if_true]
    split <;> simp
  · have h2 : isLargerPair s.largestSeq s.largestSubSeq n sub = false := by
      simpa using h
    simp only [updateSequenceNumbers, h2, Bool.false_eq_true, if_false]
    split <;> simp

theorem isLargerPair_lt (curSeq : Option Int) (curSub : Int) (n sub : Int)
    (h : isLargerPair curSeq curSub n sub = true) :
    pairLtB (curSeq, curSub) (some n, sub) = true := by
  cases curSeq with
  | none => simp [pairLtB]
  | some c =>
    simp only [isLargerPair, Bool.or_eq_true, decide_eq_true_eq, Bool.and_eq_true] at h
    simp only [pairLtB, Bool.or_eq_true, decide_eq_true_eq, Bool.and_eq_true]
    rcases h with h | ⟨h1, h2⟩
    · exact Or.inl h
    · exact Or.inr ⟨h1.symm, h2⟩

theorem pairLtB_le {a b : Option Int × Int} (h : pairLtB a b = true) :
    pairLeB a b = true := by
  rcases a with ⟨sa, xa⟩
  rcases b with ⟨sb, xb⟩
  cases sa <;> cases sb <;>
    simp_all only [pairLtB, pairLeB, Bool.or_eq_true, decide_eq_true_eq,
      Bool.and_eq_true]
  rcases h with h | ⟨h1, h2⟩
  · exact Or.inl h
  · exact Or.inr ⟨h1, le_of_lt h2⟩

theorem update_largest_le (s : BState) (n sub : Int) :
    pairLeB (s.largestSeq, s.largestSubSeq)
      ((updateSequenceNumbers s n sub).largestSeq,
        (updateSequenceNumbers s n sub).largestSubSeq) = true := by
  rw [update_largest_fields]
  by_cases h : isLargerPair s.largestSeq s.largestSubSeq n sub = true
  · simp only [h, if_true]
    exact pairLtB_le (isLargerPair_lt _ _ _ _ h)
  · simp only [Bool.not_eq_true] at h
    simp [h, pairLeB_refl]

theorem flush_largestSeq (s : BState) : (flush s).largestSeq = s.largestSeq := by
  unfold flush; split <;> rfl

theorem flush_largestSubSeq (s : BState) :
    (flush s).largestSubSeq = s.largestSubSeq := by
  unfold flush; split <;> rfl

theorem flush_flushCount (s : BState) : (flush s).flushCount = s.flushCount := by
  unfold flush; split <;> rfl

theorem flush_flushSize (s : BState) : (flush s).flushSize = s.flushSize := by
  unfold flush; split <;> rfl

theorem flush_goodB {s : BState} (h : GoodB s) : GoodB (flush s) := by
  obtain ⟨h1, h2, h3⟩ := h
  unfold flush
  split
  · exact ⟨h1, h2, h3⟩
  · refine ⟨by simp [pairLeB_refl], ?_, ?_⟩
    · intro b hb
      simp only [List.mem_append, List.mem_singleton] at hb
      rcases hb with hb | rfl
      · simpa using h2 b hb
      · simp [pairLeB_refl]
    · simp only
      rw [List.chain'_append]
      refine ⟨h3, List.chain'_singleton _, ?_⟩
      intro x hx y hy
      simp only [List.head?_cons, Option.mem_def, Option.some.injEq] at hy
      subst hy
      exact h2 x (List.mem_of_getLast?_eq_some hx)

theorem update_goodB {s : BState} (n sub : Int) (h : GoodB s) :
    GoodB (updateSequenceNumbers s n sub) := by
  obtain ⟨h1, h2, h3⟩ := h
  obtain ⟨e1, e2, e3, _, _, _⟩ := update_untouched_fields s n sub
  have hle := update_largest_le s n sub
  refine ⟨?_, ?_, ?_⟩
  · rw [e1, e2]
    exact pairLeB_trans h1 hle
  · intro b hb
    rw [e3] at hb
    exact pairLeB_trans (h2 b hb) hle
  · rw [e3]
    exact h3

theorem batch_set_goodB {s : BState} (l : List (List Nat)) (h : GoodB s) :
    GoodB { s with batch := l } := by
  obtain ⟨h1, h2, h3⟩ := h
  exact ⟨h1, h2, h3⟩

theorem step_goodB {s : BState} (e : BEvent) (h : GoodB s) :
    GoodB (batcherStep s e) := by
  cases e with
  | timer => exact flush_goodB h
  | flushReq => exact flush_goodB h
  | arrive msg n sub =>
    show GoodB (arriveStep s msg n sub)
    unfold arriveStep
    by_cases hc : s.flushSize < batchSize s.batch + msg.length
    · rw [if_pos hc]
      have hg3 := update_goodB n sub
        (batch_set_goodB ((flush s).batch ++ [msg]) (flush_goodB h))
      dsimp only
      split
      · exact flush_goodB hg3
      · exact hg3
    · rw [if_neg hc]
      have hg3 := update_goodB n sub (batch_set_goodB (s.batch ++ [msg]) h)
      dsimp only
      split
      · exact flush_goodB hg3
      · exact hg3

theorem flush_flushed_mono {s : BState}
    (h : pairLeB (s.largestSeqFlushed, s.largestSubSeqFlushed)
      (s.largestSeq, s.largestSubSeq) = true) :
    pairLeB (s.largestSeqFlushed, s.largestSubSeqFlushed)
      ((flush s).largestSeqFlushed, (flush s).largestSubSeqFlushed) = true := by
  unfold flush
  split
  · exact pairLeB_refl _
  · exact h

theorem pairLe_flush {p : Option Int × Int} {t : BState}
    (h : pairLeB p (t.largestSeq, t.largestSubSeq) = true) :
    pairLeB p ((flush t).largestSeq, (flush t).largestSubSeq) = true := by
  rw [flush_largestSeq, flush_largestSubSeq]
  exact h

theorem step_largest_mono (s : BState) (e : BEvent) :
    pairLeB (s.largestSeq, s.largestSubSeq)
      ((batcherStep s e).largestSeq, (batcherStep s e).largestSubSeq) = true := by
  cases e with
  | timer =>
    show pairLeB _ ((flush s).largestSeq, (flush s).largestSubSeq) = true
    rw [flush_largestSeq, flush_largestSubSeq]
    exact pairLeB_refl _
  | flushReq =>
    show pairLeB _ ((flush s).largestSeq, (flush s).largestSubSeq) = true
    rw [flush_largestSeq, flush_largestSubSeq]
    exact pairLeB_refl _
  | arrive msg n sub =>
    show pairLeB _ ((arriveStep s msg n sub).largestSeq,
      (arriveStep s msg n sub).largestSubSeq) = true
    unfold arriveStep
    by_cases hc : s.flushSize < batchSize s.batch + msg.length
    · rw [if_pos hc]
      dsimp only
      have hp : (({ flush s with batch := (flush s).batch ++ [msg] } : BState).largestSeq,
          ({ flush s with batch := (flush s).batch ++ [msg] } : BState).largestSubSeq)
          = (s.largestSeq, s.largestSubSeq) := by
        simp [flush_largestSeq, flush_largestSubSeq]
      have h1 := hp ▸ update_largest_le
        { flush s with batch := (flush s).batch ++ [msg] } n sub
      split
      · exact pairLe_flush h1
      · exact h1
    · rw [if_neg hc]
      dsimp only
      have h1 := update_largest_le { s with batch := s.batch ++ [msg] } n sub
      split
      · exact pairLe_flush h1
      · exact h1

theorem step_flushed_mono {s : BState} (h : GoodB s) (e : BEvent) :
    pairLeB (s.largestSeqFlushed, s.largestSubSeqFlushed)
      ((batcherStep s e).largestSeqFlushed,
        (batcherStep s e).largestSubSeqFlushed) = true := by
  cases e with
  | timer => exact flush_flushed_mono h.1
  | flushReq => exact flush_flushed_mono h.1
  | arrive msg n sub =>
    show pairLeB _ ((arriveStep s msg n sub).largestSeqFlushed,
      (arriveStep s msg n sub).largestSubSeqFlushed) = true
    unfold arriveStep
    by_cases hc : s.flushSize < batchSize s.batch + msg.length
    · rw [if_pos hc]
      dsimp only
      have hgood := update_goodB n sub
        (batch_set_goodB ((flush s).batch ++ [msg]) (flush_goodB h))
      have mono1 : pairLeB (s.largestSeqFlushed, s.largestSubSeqFlushed)
          ((updateSequenceNumbers { flush s with batch := (flush s).batch ++ [msg] }
              n sub).largestSeqFlushed,
            (updateSequenceNumbers { flush s with batch := (flush s).batch ++ [msg] }
              n sub).largestSubSeqFlushed) = true := by
        obtain ⟨u1, u2, _, _, _, _⟩ := update_untouched_fields
          { flush s with batch := (flush s).batch ++ [msg] } n sub
        rw [u1, u2]
        exact flush_flushed_mono h.1
      split
      · exact pairLeB_trans mono1 (flush_flushed_mono hgood.1)
      · exact mono1
    · rw [if_neg hc]
      dsimp only
      have hgood := update_goodB n sub (batch_set_goodB (s.batch ++ [msg]) h)
      have mono1 : pairLeB (s.largestSeqFlushed, s.largestSubSeqFlushed)
          ((updateSequenceNumbers { s with batch := s.batch ++ [msg] }
              n sub).largestSeqFlushed,
            (updateSequenceNumbers { s with batch := s.batch ++ [msg] }
              n sub).largestSubSeqFlushed) = true := by
        obtain ⟨u1, u2, _, _, _, _⟩ := update_untouched_fields
          { s with batch := s.batch ++ [msg] } n sub
        rw [u1, u2]
        exact pairLeB_refl _
      split
      · exact pairLeB_trans mono1 (flush_flushed_mono hgood.1)
      · exact mono1

theorem goodB_init (fc fs : Nat) : GoodB (initBState fc fs) := by
  refine ⟨rfl, ?_, ?_⟩ <;> simp [initBState]

theorem goodB_run (fc fs : Nat) (evs : List BEvent) : GoodB (runBatcher fc fs evs) := by
  suffices h : ∀ (l : List BEvent) (s : BState), GoodB s → GoodB (l.foldl batcherStep s) by
    exact h evs _ (goodB_init fc fs)
  intro l
  induction l with
  | nil => intro s hs; exact hs
  | cons e rest ih =>
    intro s hs
    exact ih _ (step_goodB e hs)

/-- C1: the tracked largest sequence pair is monotonically non-decreasing in
lexicographic (seq, subseq) order over any reachable batcher/writer state:
each step leaves the batcher's largest pair and the writer's largest-flushed
pair unchanged or makes them larger, `flush` never resets the largest pair,
`updateSequenceNumbers` replaces the largest pair exactly when no pair is
recorded, the seq is greater, or the seq is equal and the subseq is greater
(and then by a strictly larger pair), and the largest pairs of successive
flushes are non-decreasing along the delivery log. -/
theorem largest_pair_monotone (fc fs : Nat) (evs : List BEvent) (e : BEvent)
    (n sub : Int) :
    pairLeB ((runBatcher fc fs evs).largestSeq, (runBatcher fc fs evs).largestSubSeq)
      ((batcherStep (runBatcher fc fs evs) e).largestSeq,
        (batcherStep (runBatcher fc fs evs) e).largestSubSeq) = true ∧
    pairLeB ((runBatcher fc fs evs).largestSeqFlushed,
        (runBatcher fc fs evs).largestSubSeqFlushed)
      ((batcherStep (runBatcher fc fs evs) e).largestSeqFlushed,
        (batcherStep (runBatcher fc fs evs) e).largestSubSeqFlushed) = true ∧
    (flush (runBatcher fc fs evs)).largestSeq = (runBatcher fc fs evs).largestSeq ∧
    (flush (runBatcher fc fs evs)).largestSubSeq = (runBatcher fc fs evs).largestSubSeq ∧
    (isLargerPair (runBatcher fc fs evs).largestSeq
        (runBatcher fc fs evs).largestSubSeq n sub = true →
      ((updateSequenceNumbers (runBatcher fc fs evs) n sub).largestSeq,
        (updateSequenceNumbers (runBatcher fc fs evs) n sub).largestSubSeq)
        = (some n, sub) ∧
      pairLtB ((runBatcher fc fs evs).largestSeq,
        (runBatcher fc fs evs).largestSubSeq) (some n, sub) = true) ∧
    (isLargerPair (runBatcher fc fs evs).largestSeq
        (runBatcher fc fs evs).largestSubSeq n sub = false →
      ((updateSequenceNumbers (runBatcher fc fs evs) n sub).largestSeq,
        (updateSequenceNumbers (runBatcher fc fs evs) n sub).largestSubSeq)
        = ((runBatcher fc fs evs).largestSeq, (runBatcher fc fs evs).largestSubSeq)) ∧
    List.Chain' (fun a b => pairLeB (a.seq, a.sub) (b.seq, b.sub) = true)
      ((batcherStep (runBatcher fc fs evs) e).sent) := by
  have hg := goodB_run fc fs evs
  refine ⟨step_largest_mono _ e, step_flushed_mono hg e,
    flush_largestSeq _, flush_largestSubSeq _, ?_, ?_, (step_goodB e hg).2.2⟩
  · intro hL
    refine ⟨?_, isLargerPair_lt _ _ _ _ hL⟩
    rw [update_largest_fields]
    simp [hL]
  · intro hL
    rw [update_largest_fields]
    simp [hL]

/-- Witness for C1 at a concrete run: two arrivals with growing sequence
numbers, then a further arrival event and an update with a larger pair. -/
theorem largest_pair_monotone_witness :
    pairLeB ((runBatcher 10 100 [BEvent.arrive [1, 2] 5 0]).largestSeq,
      (runBatcher 10 100 [BEvent.arrive [1, 2] 5 0]).largestSubSeq)
      ((batcherStep (runBatcher 10 100 [BEvent.arrive [1, 2] 5 0])
          (BEvent.arrive [3] 7 1)).largestSeq,
        (batcherStep (runBatcher 10 100 [BEvent.arrive [1, 2] 5 0])
          (BEvent.arrive [3] 7 1)).largestSubSeq) = true ∧
    ((updateSequenceNumbers (runBatcher 10 100 [BEvent.arrive [1, 2] 5 0]) 9 0).largestSeq,
      (updateSequenceNumbers (runBatcher 10 100 [BEvent.arrive [1, 2] 5 0]) 9 0).largestSubSeq)
      = (some 9, 0) := by
  have h := largest_pair_monotone 10 100 [BEvent.arrive [1, 2] 5 0]
    (BEvent.arrive [3] 7 1) 9 0
  exact ⟨h.1, (h.2.2.2.2.1 (by decide)).1⟩

theorem flush_batch (s : BState) : (flush s).batch = [] := by
  unfold flush
  split
  · assumption
  · rfl

theorem flush_sent (s : BState) :
    (flush s).sent = if s.batch = [] then s.sent
      else s.sent ++ [⟨s.batch, s.largestSeq, s.largestSubSeq⟩] := by
  unfold flush
  split <;> simp_all

theorem batchSize_append (l : List (List Nat)) (m : List Nat) :
    batchSize (l ++ [m]) = batchSize l + m.length := by
  unfold batchSize
  rw [List.foldl_append]
  rfl

theorem batchSize_nil : batchSize [] = 0 := rfl

theorem batchSize_singleton (m : List Nat) : batchSize [m] = m.length := by
  unfold batchSize
  simp

theorem flush_C4' {fc fs : Nat} {s : BState} (hfc : 1 ≤ fc) (hfs : 1 ≤ fs)
    (e1 : s.flushCount = fc) (e2 : s.flushSize = fs)
    (hstand : (s.batch.length ≤ fc ∧ batchSize s.batch ≤ fs) ∨
      (∃ m, s.batch = [m] ∧ fs < m.length))
    (hsent : ∀ b ∈ s.sent, deliveredOk fc fs b) :
    C4Inv fc fs (flush s) := by
  unfold flush
  split
  · next hemp =>
    refine ⟨e1, e2, ?_, ?_, hsent⟩
    · rw [hemp]; simpa using hfc
    · rw [hemp, batchSize_nil]; omega
  · refine ⟨e1, e2, by simpa using hfc, ?_, ?_⟩
    · show batchSize [] < fs
      rw [batchSize_nil]; omega
    · intro b hb
      simp only [List.mem_append, List.mem_singleton] at hb
      rcases hb with hb | rfl
      · exact hsent b hb
      · exact hstand

theorem flush_C4 {fc fs : Nat} {s : BState} (hfc : 1 ≤ fc) (hfs : 1 ≤ fs)
    (h : C4Inv fc fs s) : C4Inv fc fs (flush s) := by
  obtain ⟨e1, e2, h1, h2, h3⟩ := h
  exact flush_C4' hfc hfs e1 e2 (Or.inl ⟨le_of_lt h1, le_of_lt h2⟩) h3

theorem arrive_C4 {fc fs : Nat} {s : BState} (hfc : 1 ≤ fc) (hfs : 1 ≤ fs)
    (h : C4Inv fc fs s) (msg : List Nat) (n sub : Int) :
    C4Inv fc fs (arriveStep s msg n sub) := by
  obtain ⟨e1, e2, h1, h2, h3⟩ := h
  unfold arriveStep
  by_cases hc : s.flushSize < batchSize s.batch + msg.length
  · rw [if_pos hc]
    dsimp only
    have hflush := flush_C4 hfc hfs ⟨e1, e2, h1, h2, h3⟩
    obtain ⟨f1, f2, _, _, f5⟩ := hflush
    obtain ⟨_, _, u3, u4, u5, u6⟩ := update_untouched_fields
      { flush s with batch := (flush s).batch ++ [msg] } n sub
    have hb : (updateSequenceNumbers
        { flush s with batch := (flush s).batch ++ [msg] } n sub).batch = [msg] := by
      rw [u4]
      show (flush s).batch ++ [msg] = [msg]
      rw [flush_batch]
      rfl
    have hcnt : (updateSequenceNumbers
        { flush s with batch := (flush s).batch ++ [msg] } n sub).flushCount = fc := by
      rw [u5]
      show (flush s).flushCount = fc
      rw [flush_flushCount]
      exact e1
    have hsz : (updateSequenceNumbers
        { flush s with batch := (flush s).batch ++ [msg] } n sub).flushSize = fs := by
      rw [u6]
      show (flush s).flushSize = fs
      rw [flush_flushSize]
      exact e2
    have hsent : ∀ b ∈ (updateSequenceNumbers
        { flush s with batch := (flush s).batch ++ [msg] } n sub).sent,
        deliveredOk fc fs b := by
      rw [u3]
      show ∀ b ∈ (flush s).sent, deliveredOk fc fs b
      exact f5
    split
    · apply flush_C4' hfc hfs hcnt hsz ?_ hsent
      rw [hb]
      by_cases hlen : msg.length ≤ fs
      · exact Or.inl ⟨by simpa using hfc, by rw [batchSize_singleton]; exact hlen⟩
      · exact Or.inr ⟨msg, rfl, by omega⟩
    · next hcond =>
      rw [hcnt, hb, hsz] at hcond
      simp only [Bool.or_eq_true, decide_eq_true_eq, not_or,
        batchSize_singleton, List.length_singleton, not_le] at hcond
      refine ⟨hcnt, hsz, ?_, ?_, hsent⟩
      · rw [hb]
        simpa using hcond.1
      · rw [hb, batchSize_singleton]
        exact hcond.2
  · rw [if_neg hc]
    dsimp only
    obtain ⟨_, _, u3, u4, u5, u6⟩ := update_untouched_fields
      { s with batch := s.batch ++ [msg] } n sub
    have hb : (updateSequenceNumbers
        { s with batch := s.batch ++ [msg] } n sub).batch = s.batch ++ [msg] := u4
    have hcnt : (updateSequenceNumbers
        { s with batch := s.batch ++ [msg] } n sub).flushCount = fc := by
      rw [u5]; exact e1
    have hsz : (updateSequenceNumbers
        { s with batch := s.batch ++ [msg] } n sub).flushSize = fs := by
      rw [u6]; exact e2
    have hsent : ∀ b ∈ (updateSequenceNumbers
        { s with batch := s.batch ++ [msg] } n sub).sent,
        deliveredOk fc fs b := by
      rw [u3]; exact h3
    have hsize2 : batchSize (s.batch ++ [msg]) ≤ fs := by
      rw [batchSize_append]
      rw [e2] at hc
      omega
    split
    · apply flush_C4' hfc hfs hcnt hsz ?_ hsent
      rw [hb]
      refine Or.inl ⟨?_, hsize2⟩
      simp only [List.length_append, List.length_singleton]
      omega
    · next hcond =>
      rw [hcnt, hb, hsz] at hcond
      simp only [Bool.or_eq_true, decide_eq_true_eq, not_or, not_le] at hcond
      refine ⟨hcnt, hsz, ?_, ?_, hsent⟩
      · rw [hb]
        exact hcond.1
      · rw [hb]
        exact hcond.2

theorem step_C4 {fc fs : Nat} {s : BState} (hfc : 1 ≤ fc) (hfs : 1 ≤ fs)
    (h : C4Inv fc fs s) (e : BEvent) : C4Inv fc fs (batcherStep s e) := by
  cases e with
  | timer => exact flush_C4 hfc hfs h
  | flushReq => exact flush_C4 hfc hfs h
  | arrive msg n sub => exact arrive_C4 hfc hfs h msg n sub

theorem C4_init (fc fs : Nat) (hfc : 1 ≤ fc) (hfs : 1 ≤ fs) :
    C4Inv fc fs (initBState fc fs) := by
  refine ⟨rfl, rfl, by simpa using hfc, ?_, by simp [initBState]⟩
  show batchSize [] < fs
  rw [batchSize_nil]
  omega

theorem C4_run (fc fs : Nat) (hfc : 1 ≤ fc) (hfs : 1 ≤ fs) (evs : List BEvent) :
    C4Inv fc fs (runBatcher fc fs evs) := by
  suffices h : ∀ (l : List BEvent) (s : BState), C4Inv fc fs s →
      C4Inv fc fs (l.foldl batcherStep s) by
    exact h evs _ (C4_init fc fs hfc hfs)
  intro l
  induction l with
  | nil => intro s hs; exact hs
  | cons e rest ih =>
    intro s hs
    exact ih _ (step_C4 hfc hfs hs e)

/-- C4: with a valid configuration (`flushCount ≥ 1`, `flushSize ≥ 1`, as
validated at construction), every batch the batcher delivers to the sink has
at most `flushCount` items and total size at most `flushSize`, except for a
one-item batch whose sole payload alone exceeds `flushSize`. -/
theorem delivered_batch_bounds (fc fs : Nat) (hfc : 1 ≤ fc) (hfs : 1 ≤ fs)
    (evs : List BEvent) (b : SentBatch) (hb : b ∈ (runBatcher fc fs evs).sent) :
    (b.items.length ≤ fc ∧ batchSize b.items ≤ fs) ∨
    (∃ m, b.items = [m] ∧ fs < m.length) := by
  have h := C4_run fc fs hfc hfs evs
  exact h.2.2.2.2 b hb

/-- Witness for C4: with `flushCount = 2`, `flushSize = 8`, a single ten-byte
payload is delivered alone as an oversized singleton batch. -/
theorem delivered_batch_bounds_witness :
    ((⟨[[0, 1, 2, 3, 4, 5, 6, 7, 8, 9]], some 1, 0⟩ : SentBatch).items.length ≤ 2 ∧
      batchSize (⟨[[0, 1, 2, 3, 4, 5, 6, 7, 8, 9]], some 1, 0⟩ : SentBatch).items ≤ 8) ∨
    (∃ m, (⟨[[0, 1, 2, 3, 4, 5, 6, 7, 8, 9]], some 1, 0⟩ : SentBatch).items = [m] ∧
      8 < m.length) :=
  delivered_batch_bounds 2 8 (by decide) (by decide)
    [BEvent.arrive [0, 1, 2, 3, 4, 5, 6, 7, 8, 9] 1 0]
    ⟨[[0, 1, 2, 3, 4, 5, 6, 7, 8, 9]], some 1, 0⟩ (by decide)

theorem flush_sentNonempty {s : BState} (h : sentNonempty s) :
    sentNonempty (flush s) := by
  unfold flush
  split
  · exact h
  · next hne =>
    intro b hb
    simp only [List.mem_append, List.mem_singleton] at hb
    rcases hb with hb | rfl
    · exact h b hb
    · exact hne

theorem step_sentNonempty {s : BState} (h : sentNonempty s) (e : BEvent) :
    sentNonempty (batcherStep s e) := by
  cases e with
  | timer => exact flush_sentNonempty h
  | flushReq => exact flush_sentNonempty h
  | arrive msg n sub =>
    show sentNonempty (arriveStep s msg n sub)
    unfold arriveStep
    by_cases hc : s.flushSize < batchSize s.batch + msg.length
    · rw [if_pos hc]
      dsimp only
      have h1 : sentNonempty (updateSequenceNumbers
          { flush s with batch := (flush s).batch ++ [msg] } n sub) := by
        obtain ⟨_, _, u3, _, _, _⟩ := update_untouched_fields
          { flush s with batch := (flush s).batch ++ [msg] } n sub
        intro b hb
        rw [u3] at hb
        exact flush_sentNonempty h b hb
      split
      · exact flush_sentNonempty h1
      · exact h1
    · rw [if_neg hc]
      dsimp only
      have h1 : sentNonempty (updateSequenceNumbers
          { s with batch := s.batch ++ [msg] } n sub) := by
        obtain ⟨_, _, u3, _, _, _⟩ := update_untouched_fields
          { s with batch := s.batch ++ [msg] } n sub
        intro b hb
        rw [u3] at hb
        exact h b hb
      split
      · exact flush_sentNonempty h1
      · exact h1

theorem run_sentNonempty (fc fs : Nat) (evs : List BEvent) :
    sentNonempty (runBatcher fc fs evs) := by
  suffices h : ∀ (l : List BEvent) (s : BState), sentNonempty s →
      sentNonempty (l.foldl batcherStep s) by
    refine h evs _ ?_
    intro b hb
    simp [initBState] at hb
  intro l
  induction l with
  | nil => intro s hs; exact hs
  | cons e rest ih =>
    intro s hs
    exact ih _ (step_sentNonempty hs e)

/-- C5: `flush` is a no-op on an empty batch; on a non-empty batch it calls
the sink exactly once with the accumulated items and the current largest
pair, after which the batch is empty and `smallest` is reset to nil while
the largest pair is unchanged; and along any run the sink is never handed an
empty items array. -/
theorem flush_semantics (s : BState) (fc fs : Nat) (evs : List BEvent) :
    (s.batch = [] → flush s = s) ∧
    (s.batch ≠ [] →
      flush s = { s with
        sent := s.sent ++ [⟨s.batch, s.largestSeq, s.largestSubSeq⟩]
        largestSeqFlushed := s.largestSeq
        largestSubSeqFlushed := s.largestSubSeq
        smallestSeq := none
        batch := [] }) ∧
    (flush s).largestSeq = s.largestSeq ∧
    (flush s).largestSubSeq = s.largestSubSeq ∧
    (∀ b ∈ (runBatcher fc fs evs).sent, b.items ≠ []) := by
  refine ⟨?_, ?_, flush_largestSeq s, flush_largestSubSeq s,
    run_sentNonempty fc fs evs⟩
  · intro hemp
    unfold flush
    rw [if_pos hemp]
  · intro hne
    unfold flush
    rw [if_neg hne]

/-- Witness for C5 at concrete states: a non-empty one-message batch is
delivered with the tracked largest pair and resets the batch and smallest
pair, and an empty batch is left untouched. -/
theorem flush_semantics_witness :
    flush (BState.mk 10 100 [[7]] (some 3) 1 (some 2) 0 none 0 []) =
      BState.mk 10 100 [] (some 3) 1 none 0 (some 3) 1 [SentBatch.mk [[7]] (some 3) 1] ∧
    flush (initBState 10 100) = initBState 10 100 := by
  constructor
  · exact ((flush_semantics
      (BState.mk 10 100 [[7]] (some 3) 1 (some 2) 0 none 0 []) 10 100 []).2.1
        (by decide)).trans rfl
  · exact (flush_semantics (initBState 10 100) 10 100 []).1 rfl

/-- C6: `AddMessage` returns an error exactly when the payload is empty or
the sequence number is not a valid base-10 integer string; on error nothing
is enqueued and the batcher state (tracked pairs, sink log) is untouched; on
success the parsed pack is enqueued on the channel, whose capacity is 100. -/
theorem addMessage_semantics (q : List MsgPack) (msg : List Nat) (seq : String)
    (sub : Int) (s : BState) :
    ((addMessage q msg seq sub).2.isSome ↔ (msg = [] ∨ parseBigInt seq = none)) ∧
    ((addMessage q msg seq sub).2.isSome → (addMessage q msg seq sub).1 = q) ∧
    (∀ n, parseBigInt seq = some n → msg ≠ [] →
      addMessage q msg seq sub = (q ++ [⟨msg, n, sub⟩], none)) ∧
    (sysAddMessage s q msg seq sub).1 = s ∧
    msgChanCapacity = 100 := by
  refine ⟨?_, ?_, ?_, rfl, rfl⟩
  · unfold addMessage
    by_cases hm : msg.length ≤ 0
    · have hm2 : msg = [] := List.length_eq_zero.mp (Nat.le_zero.mp hm)
      rw [if_pos hm]
      simp [hm2]
    · have hm2 : msg ≠ [] := by
        intro hcon
        rw [hcon] at hm
        exact hm (le_refl 0)
      rw [if_neg hm]
      cases hp : parseBigInt seq with
      | none => simp [hm2]
      | some n => simp [hm2]
  · intro hsome
    unfold addMessage at hsome ⊢
    by_cases hm : msg.length ≤ 0
    · rw [if_pos hm] at hsome ⊢
    · rw [if_neg hm] at hsome ⊢
      cases hp : parseBigInt seq with
      | none => rfl
      | some n =>
        rw [hp] at hsome
        simp at hsome
  · intro n hp hne
    unfold addMessage
    have hm : ¬ msg.length ≤ 0 := by
      cases msg with
      | nil => exact absurd rfl hne
      | cons a l => simp
    rw [if_neg hm, hp]

/-- Witness for C6: the empty payload is rejected, a non-numeric sequence
number is rejected leaving the queue unchanged, and a valid submission
enqueues the parsed pack while the batcher state is untouched. -/
theorem addMessage_semantics_witness :
    (addMessage [] [] "99999" 12345).2.isSome = true ∧
    (addMessage [] [104] "not-a-number" 12345).1 = [] ∧
    addMessage [] [104] "99999" 12345 = ([⟨[104], 99999, 12345⟩], none) ∧
    (sysAddMessage (initBState 10 100) [] [104] "99999" 12345).1 =
      initBState 10 100 := by
  refine ⟨?_, ?_, ?_, ?_⟩
  · exact (addMessage_semantics [] [] "99999" 12345 (initBState 10 100)).1.mpr
      (Or.inl rfl)
  · exact (addMessage_semantics [] [104] "not-a-number" 12345
      (initBState 10 100)).2.1 (by decide)
  · exact (addMessage_semantics [] [104] "99999" 12345
      (initBState 10 100)).2.2.1 99999 (by decide) (by decide)
  · exact (addMessage_semantics [] [104] "99999" 12345
      (initBState 10 100)).2.2.2.1

/-- C2 (code-bug evidence): when the checkpoint frequency has elapsed but no
batch has been flushed yet (`largestSeqFlushed` is the nil pointer),
`ProcessRecords` still invokes the checkpointer — passing the formatted nil
pointer `"<nil>"` and subsequence 0 — where the claim requires that no
checkpoint be performed. -/
theorem processRecords_checkpoints_nil :
    (processRecordsModel [] true none 0).call =
      some (CheckpointCall.mk "<nil>" 0) ∧
    (processRecordsModel [] false none 0).call = none := by
  constructor <;> rfl

/-- C7 (counterexample): the older `RecordProcessor.Shutdown` revision
(src/unnamed/part_002) flushes, sleeps five seconds and checkpoints with
sequence arguments even when the reason is `FAILOVER`, contradicting the
claim that a non-TERMINATE reason performs neither flush nor checkpoint. -/
theorem rpShutdown_failover_counterexample :
    rpShutdown none 0 "FAILOVER" =
      [HostAction.flushBatcher, HostAction.sleepSeconds 5,
        HostAction.checkpointSeq "<nil>" 0] ∧
    rpShutdown none 0 "FAILOVER" ≠ [] := by
  constructor
  · rfl
  · decide

/-- C7 (amended): the current writer's `Shutdown` flushes the batcher and
then checkpoints with no sequence arguments exactly when the reason is
`TERMINATE`, and does neither otherwise; the older record-processor
revision unconditionally flushes, waits five seconds, and checkpoints with
the tracked largest pair for every reason. -/
theorem shutdown_semantics (reason : String) (ls : Option Int) (lsub : Int) :
    writerShutdown "TERMINATE" =
      [HostAction.flushBatcher, HostAction.checkpointShutdown] ∧
    (reason ≠ "TERMINATE" → writerShutdown reason = []) ∧
    rpShutdown ls lsub reason =
      [HostAction.flushBatcher, HostAction.sleepSeconds 5,
        HostAction.checkpointSeq (bigIntStr ls) lsub] := by
  refine ⟨rfl, ?_, rfl⟩
  intro h
  unfold writerShutdown
  rw [if_neg h]

/-- Witness for the amended C7: a failover reason leaves the writer's
shutdown with no flush and no checkpoint. -/
theorem shutdown_semantics_witness :
    writerShutdown "FAILOVER" = [] :=
  (shutdown_semantics "FAILOVER" none 0).2.1 (by decide)

theorem rpCheckpointGo_attempts_le (results : Nat → Option CPErr)
    (retries : Nat) : ∀ (k n : Nat),
    (rpCheckpointGo results retries k n).attempts ≤ k
  | 0, _ => by simp [rpCheckpointGo]
  | k + 1, n => by
    have ih := rpCheckpointGo_attempts_le results retries k (n + 1)
    unfold rpCheckpointGo
    cases hr : results n with
    | none => dsimp only; omega
    | some e =>
      cases e with
      | shutdownExc => dsimp only; omega
      | throttlingExc =>
        by_cases hn : n = retries - 1
        · rw [if_pos hn]; dsimp only; omega
        · rw [if_neg hn]; dsimp only; omega
      | invalidStateExc =>
        by_cases hn : n = retries - 1
        · rw [if_pos hn]; dsimp only; omega
        · rw [if_neg hn]; dsimp only; omega
      | otherExc m =>
        by_cases hn : n = retries - 1
        · rw [if_pos hn]; dsimp only; omega
        · rw [if_neg hn]; dsimp only; omega

theorem rpCheckpointGo_exhaust (results : Nat → Option CPErr) (retries : Nat)
    (hfail : ∀ n, ∃ e, results n = some e ∧ e ≠ CPErr.shutdownExc) :
    ∀ (k n : Nat), 1 ≤ k → n + k = retries →
    rpCheckpointGo results retries k n = ⟨k, k - 1, true⟩
  | 0, n => by omega
  | 1, n => by
    intro _ h2
    obtain ⟨e, he, hne⟩ := hfail n
    unfold rpCheckpointGo
    rw [he]
    cases e with
    | shutdownExc => exact absurd rfl hne
    | throttlingExc => rw [if_pos (by omega : n = retries - 1)]
    | invalidStateExc => rw [if_pos (by omega : n = retries - 1)]
    | otherExc m => rw [if_pos (by omega : n = retries - 1)]
  | k + 2, n => by
    intro _ h2
    obtain ⟨e, he, hne⟩ := hfail n
    have ih := rpCheckpointGo_exhaust results retries hfail (k + 1) (n + 1)
      (by omega) (by omega)
    unfold rpCheckpointGo
    rw [he]
    have hnr : ¬ n = retries - 1 := by omega
    cases e with
    | shutdownExc => exact absurd rfl hne
    | throttlingExc =>
      rw [if_neg hnr]
      dsimp only
      rw [ih]
      rfl
    | invalidStateExc =>
      rw [if_neg hnr]
      dsimp only
      rw [ih]
      rfl
    | otherExc m =>
      rw [if_neg hnr]
      dsimp only
      rw [ih]
      rfl

theorem fwCheckpointGo_exhaust (results : Nat → Option CPErr) (retries : Nat)
    (hfail : ∀ n, ∃ e, results n = some e ∧ e ≠ CPErr.shutdownExc) :
    ∀ (k i : Nat), i + k = retries + 1 →
    fwCheckpointGo results retries k i = ⟨k, k, false⟩
  | 0, i => by intro _; simp [fwCheckpointGo]
  | k + 1, i => by
    intro h2
    obtain ⟨e, he, hne⟩ := hfail i
    have ih := fwCheckpointGo_exhaust results retries hfail k (i + 1) (by omega)
    have hdead : ¬ ((i : Int) - 1 = (retries : Int)) := by omega
    unfold fwCheckpointGo
    rw [he]
    cases e with
    | shutdownExc => exact absurd rfl hne
    | throttlingExc =>
      rw [if_neg hdead]
      dsimp only
      rw [ih]
    | invalidStateExc =>
      rw [if_neg hdead]
      dsimp only
      rw [ih]
    | otherExc m =>
      rw [if_neg hdead]
      dsimp only
      rw [ih]

/-- C8 (counterexample): with `checkpointRetries = 5` and every attempt
failing with a retryable error, the older `FirehoseWriter.checkpoint`
(src/unnamed/part_000) calls the host six times — one more than
`checkpointRetries` — sleeps after every failed attempt including the last,
and never logs the giving-up message (its guard `n == checkpointRetries` is
unreachable). -/
theorem fwCheckpoint_counterexample :
    fwCheckpoint alwaysFailCP checkpointRetries = ⟨6, 6, false⟩ ∧
    ¬ ((fwCheckpoint alwaysFailCP checkpointRetries).attempts ≤ checkpointRetries) ∧
    (fwCheckpoint alwaysFailCP checkpointRetries).gaveUp = false := by
  refine ⟨rfl, by decide, rfl⟩

/-- C8 (amended): the record-processor revision of the checkpoint routine
makes at most `checkpointRetries` attempts, returns immediately after a
ShutdownException, and — when every attempt fails retryably — makes exactly
`checkpointRetries` attempts with `checkpointRetries - 1` sleeps and logs
the giving-up message; the older writer revision under the same failures
makes `checkpointRetries + 1` attempts, sleeps after every failed attempt,
and never logs giving up.  Both return without an error in all cases. -/
theorem checkpoint_retry_semantics (results : Nat → Option CPErr) :
    (rpCheckpoint results checkpointRetries).attempts ≤ checkpointRetries ∧
    (results 0 = some CPErr.shutdownExc →
      rpCheckpoint results checkpointRetries = ⟨1, 0, false⟩ ∧
      fwCheckpoint results checkpointRetries = ⟨1, 0, false⟩) ∧
    ((∀ n, ∃ e, results n = some e ∧ e ≠ CPErr.shutdownExc) →
      rpCheckpoint results checkpointRetries =
        ⟨checkpointRetries, checkpointRetries - 1, true⟩ ∧
      fwCheckpoint results checkpointRetries =
        ⟨checkpointRetries + 1, checkpointRetries + 1, false⟩) := by
  refine ⟨rpCheckpointGo_attempts_le results checkpointRetries
    checkpointRetries 0, ?_, ?_⟩
  · intro h
    constructor
    · show rpCheckpointGo results checkpointRetries checkpointRetries 0 = _
      unfold checkpointRetries
      unfold rpCheckpointGo
      rw [h]
    · show fwCheckpointGo results checkpointRetries (checkpointRetries + 1) 0 = _
      unfold checkpointRetries
      unfold fwCheckpointGo
      rw [h]
  · intro hfail
    exact ⟨rpCheckpointGo_exhaust results checkpointRetries hfail
        checkpointRetries 0 (by decide) (by decide),
      fwCheckpointGo_exhaust results checkpointRetries hfail
        (checkpointRetries + 1) 0 (by decide)⟩

/-- Witness for the amended C8: with every attempt failing retryably, the
record-processor routine stops after five attempts with four sleeps and the
giving-up log, while the older writer routine runs six attempts with six
sleeps and no giving-up log. -/
theorem checkpoint_retry_semantics_witness :
    rpCheckpoint alwaysFailCP checkpointRetries = ⟨5, 4, true⟩ ∧
    fwCheckpoint alwaysFailCP checkpointRetries = ⟨6, 6, false⟩ := by
  have h := (checkpoint_retry_semantics alwaysFailCP).2.2
    (fun n => ⟨CPErr.otherExc "boom", rfl, by decide⟩)
  exact ⟨h.1, h.2⟩

/-- C3 (counterexample): with the sink failing the single item on every
attempt, `SendBatch` sleeps 250, 500, 1000, 2000, 4000 and then a sixth
8000 ms delay, performs seven sends in all, and only then returns the
partial error — not the five delays and four retries the claim states. -/
theorem sendBatch_retry_counterexample :
    sendBatchModel alwaysFailOracle [[104]] =
      (SBResult.stillFailed [[104]], [250, 500, 1000, 2000, 4000, 8000], 7) ∧
    ([250, 500, 1000, 2000, 4000, 8000] : List Nat) ≠
      [250, 500, 1000, 2000, 4000] := by
  constructor
  · rfl
  · decide

/-- C3 (amended): whenever every `sendRecords` call returns a response whose
`FailedPutCount` is non-zero, `SendBatch` sleeps 250 ms before the first
retry and doubles the delay each time, so the attempted delays are 250,
500, 1000, 2000, 4000 and 8000 ms; it makes seven sends in all (the initial
one plus six retries) and returns the partial error carrying the items
re-sent in the final attempt — those whose entry in the sixth response
failed. -/
theorem sendBatch_all_fail (oracle : Nat → Except String SinkResp)
    (r : Nat → SinkResp)
    (hok : ∀ n, oracle n = Except.ok (r n))
    (hfail : ∀ n, (r n).failedPutCount ≠ 0)
    (batch : List (List Nat)) :
    sendBatchModel oracle batch =
      (SBResult.stillFailed (collectRetryLogs batch (r 5).responses),
        [250, 500, 1000, 2000, 4000, 8000], 7) := by
  unfold sendBatchModel
  rw [hok 0]
  unfold sendBatchLoop
  rw [if_neg (hfail 0), hok 1]
  dsimp only
  rw [if_neg (show ¬ (0 : Nat) > 4 by omega)]
  unfold sendBatchLoop
  rw [if_neg (hfail 1), hok 2]
  dsimp only
  rw [if_neg (show ¬ (1 : Nat) > 4 by omega)]
  unfold sendBatchLoop
  rw [if_neg (hfail 2), hok 3]
  dsimp only
  rw [if_neg (show ¬ (2 : Nat) > 4 by omega)]
  unfold sendBatchLoop
  rw [if_neg (hfail 3), hok 4]
  dsimp only
  rw [if_neg (show ¬ (3 : Nat) > 4 by omega)]
  unfold sendBatchLoop
  rw [if_neg (hfail 4), hok 5]
  dsimp only
  rw [if_neg (show ¬ (4 : Nat) > 4 by omega)]
  unfold sendBatchLoop
  rw [if_neg (hfail 5), hok 6]
  dsimp only
  rw [if_pos (show (5 : Nat) > 4 by omega)]
  norm_num

/-- Witness for the amended C3 at the concrete always-failing oracle. -/
theorem sendBatch_all_fail_witness :
    sendBatchModel alwaysFailOracle [[104]] =
      (SBResult.stillFailed (collectRetryLogs [[104]]
          (SinkResp.mk 1 [some (some "boom")]).responses),
        [250, 500, 1000, 2000, 4000, 8000], 7) := by
  have hne : (SinkResp.mk 1 [some (some "boom")]).failedPutCount ≠ 0 := by decide
  exact sendBatch_all_fail alwaysFailOracle
    (fun _ => SinkResp.mk 1 [some (some "boom")]) (fun _ => rfl)
    (fun _ => hne) [[104]]

theorem halfDrop_eq (l : String) : halfDroppedFor l = claimHalfDrop l := by
  unfold halfDroppedFor claimHalfDrop
  by_cases h1 : l = "trace"
  · simp [h1]
  · by_cases h2 : l = "debug"
    · subst h2
      simp
    · by_cases h3 : l = "info"
      · simp [h1, h2, h3]
      · by_cases h4 : l = "warning"
        · simp [h1, h2, h3, h4]
        · by_cases h5 : l = "error"
          · simp [h1, h2, h3, h4, h5]
          · simp [h1, h2, h3, h4, h5]

/-- C9 (counterexample): a 200-second-old message whose level field is the
EMPTY string and whose raw text contains "err" is promoted to critical by
the code, which returns 0, whereas the claim — whose promotion covers only
messages with NO string level — prescribes the positive probability
`1 - 2^(-80/1800)` for this unknown level. -/
theorem dropProbability_counterexample :
    calcDropLogProbability 200 (some "") "err" = 0 ∧
    claimDropProbability 200 (some "") "err" ≠ 0 ∧
    calcDropLogProbability 200 (some "") "err" ≠
      claimDropProbability 200 (some "") "err" := by
  have hraw : rawPromotes "err" = true := by decide
  have hcalc : calcDropLogProbability 200 (some "") "err" = 0 := by
    unfold calcDropLogProbability
    rw [if_neg (show ¬ ((200 : ℝ) - 120 ≤ 0) by norm_num)]
    dsimp only
    rw [if_pos rfl, if_pos hraw, if_pos rfl]
  have hclaim : claimDropProbability 200 (some "") "err" ≠ 0 := by
    unfold claimDropProbability
    dsimp only
    rw [if_neg (show ¬ ((200 : ℝ) ≤ 120 ∨ ("" : String) = "critical") from by
      push_neg
      exact ⟨by norm_num, by decide⟩)]
    have hh : claimHalfDrop "" = 1800 := by
      unfold claimHalfDrop
      simp
    rw [hh]
    have hlt : (2 : ℝ) ^ (-(((200 : ℝ) - 120) / 1800)) < 1 := by
      apply Real.rpow_lt_one_of_one_lt_of_neg
      · norm_num
      · norm_num
    have hpos : (0 : ℝ) < 1 - 2 ^ (-(((200 : ℝ) - 120) / 1800)) := by linarith
    exact ne_of_gt hpos
  refine ⟨hcalc, hclaim, ?_⟩
  rw [hcalc]
  exact fun h => hclaim h.symm

/-- C9 (amended): the drop probability computed by the code agrees, on every
input, with the claim's description amended so that a level that is present
but equal to the empty string is also treated as an unknown level (promoted
to critical when the raw text contains panic or err, else debug): it is 0
for age at most 120 s or an (effective) critical level, and otherwise
`1 - 2^(-(age-120)/halfDrop)` with halfDrop 600 for trace, 1800 for debug
and unknown levels, 3600 for info, 7200 for warning, 14400 for error. -/
theorem calcDrop_eq_amended (age : ℝ) (level : Option String) (raw : String) :
    calcDropLogProbability age level raw = amendedDropProbability age level raw := by
  unfold calcDropLogProbability amendedDropProbability
  by_cases h1 : age ≤ 120
  · rw [if_pos (show age - 120 ≤ 0 by linarith)]
    cases level with
    | none =>
      dsimp only
      rw [if_pos (Or.inl h1)]
    | some l =>
      dsimp only
      rw [if_pos (Or.inl h1)]
  · rw [if_neg (show ¬ (age - 120 ≤ 0) by linarith)]
    have h1' : ¬ (age ≤ 120) := h1
    cases level with
    | none =>
      dsimp only
      rw [if_pos rfl]
      by_cases hp : rawPromotes raw = true
      · rw [if_pos hp, if_pos rfl, if_pos (Or.inr rfl)]
      · rw [if_neg hp,
          if_neg (show ("debug" : String) ≠ "critical" by decide),
          if_neg (show ¬ (age ≤ 120 ∨ ("debug" : String) = "critical") from by
            push_neg
            exact ⟨not_le.mp h1, by decide⟩),
          halfDrop_eq]
    | some l =>
      dsimp only
      by_cases hl : l = ""
      · rw [if_pos hl]
        by_cases hp : rawPromotes raw = true
        · rw [if_pos hp, if_pos rfl, if_pos (Or.inr rfl)]
        · rw [if_neg hp,
            if_neg (show ("debug" : String) ≠ "critical" by decide),
            if_neg (show ¬ (age ≤ 120 ∨ ("debug" : String) = "critical") from by
              push_neg
              exact ⟨not_le.mp h1, by decide⟩),
            halfDrop_eq]
      · rw [if_neg hl]
        by_cases hcrit : l = "critical"
        · rw [if_pos hcrit, if_pos (Or.inr hcrit)]
        · rw [if_neg hcrit,
            if_neg (show ¬ (age ≤ 120 ∨ l = "critical") from by
              push_neg
              exact ⟨not_le.mp h1, hcrit⟩),
            halfDrop_eq]

theorem esIgnoreCheck_iff (f : ESFields) :
    (esIgnoreCheck f = ESCheck.ignoredHaproxy ∨
      esIgnoreCheck f = ESCheck.ignoredKinesis) ↔
    ((f.containerApp = some (GoVal.str "haproxy-logs") ∧
      f.decoderMsgType ≠ some (GoVal.str "Kayvee")) ∨
     (∃ ca r, f.containerApp = some (GoVal.str ca) ∧
       f.rawlog = some (GoVal.str r) ∧
       String.isPrefixOf "kinesis-" ca = true ∧
       String.isPrefixOf "SEVERE: Received error line from subprocess" r = true)) := by
  obtain ⟨capp, dmt, raw⟩ := f
  rcases capp with _ | cv
  · simp [esIgnoreCheck]
  · cases cv with
    | nonStr =>
      rcases raw with _ | rv
      · simp [esIgnoreCheck]
      · simp [esIgnoreCheck]
    | str cs =>
      rcases raw with _ | rv
      · -- rawlog absent: rule 2 cannot fire
        by_cases h1 : ((some (GoVal.str cs) : Option GoVal) =
            some (GoVal.str "haproxy-logs") ∧
            dmt ≠ some (GoVal.str "Kayvee"))
        · unfold esIgnoreCheck
          dsimp only
          rw [if_pos h1]
          simp [h1]
        · unfold esIgnoreCheck
          dsimp only
          rw [if_neg h1, if_neg (by simp)]
          simp [h1]
          intro hcs
          by_contra hd
          exact h1 ⟨by rw [hcs], hd⟩
      · cases rv with
        | nonStr =>
          by_cases h1 : ((some (GoVal.str cs) : Option GoVal) =
              some (GoVal.str "haproxy-logs") ∧
              dmt ≠ some (GoVal.str "Kayvee"))
          · unfold esIgnoreCheck
            dsimp only
            rw [if_pos h1]
            simp [h1]
          · unfold esIgnoreCheck
            dsimp only
            rw [if_neg h1, if_pos ⟨by simp, by simp⟩]
            by_cases h2 : String.isPrefixOf "kinesis-" cs = true
            · rw [if_pos h2]
              simp [h1]
              intro hcs
              by_contra hd
              exact h1 ⟨by rw [hcs], hd⟩
            · rw [if_neg h2]
              simp [h1]
              intro hcs
              by_contra hd
              exact h1 ⟨by rw [hcs], hd⟩
        | str rs =>
          by_cases h1 : ((some (GoVal.str cs) : Option GoVal) =
              some (GoVal.str "haproxy-logs") ∧
              dmt ≠ some (GoVal.str "Kayvee"))
          · unfold esIgnoreCheck
            dsimp only
            rw [if_pos h1]
            simp [h1]
          · unfold esIgnoreCheck
            dsimp only
            rw [if_neg h1, if_pos ⟨by simp, by simp⟩]
            by_cases h2 : String.isPrefixOf "kinesis-" cs = true
            · rw [if_pos h2]
              by_cases h3 : String.isPrefixOf
                  "SEVERE: Received error line from subprocess" rs = true
              · rw [if_pos h3]
                constructor
                · intro _
                  exact Or.inr ⟨cs, rs, rfl, rfl, h2, h3⟩
                · intro _
                  simp
              · rw [if_neg h3]
                simp [h1, h3]
                intro hcs
                by_contra hd
                exact h1 ⟨by rw [hcs], hd⟩
            · rw [if_neg h2]
              simp [h1, h2]
              intro hcs
              by_contra hd
              exact h1 ⟨by rw [hcs], hd⟩

/-- C10: for an Elasticsearch consumer, a successfully decoded message is
dropped with the message-ignored sentinel by the two ignore rules exactly
when its container_app equals "haproxy-logs" and its decoder message type
is not "Kayvee", or its container_app is a string starting with "kinesis-"
and its raw log is a string starting with "SEVERE: Received error line from
subprocess"; and the ignored outcomes are distinct from both forwarding and
decode failure. -/
theorem processMessage_ignore_rules (f : ESFields) (dropped : Bool) :
    ((processMessageES true (some f) dropped = PMOutcome.ignoredHaproxy ∨
      processMessageES true (some f) dropped = PMOutcome.ignoredKinesis) ↔
     ((f.containerApp = some (GoVal.str "haproxy-logs") ∧
       f.decoderMsgType ≠ some (GoVal.str "Kayvee")) ∨
      (∃ ca r, f.containerApp = some (GoVal.str ca) ∧
        f.rawlog = some (GoVal.str r) ∧
        String.isPrefixOf "kinesis-" ca = true ∧
        String.isPrefixOf "SEVERE: Received error line from subprocess" r = true))) ∧
    PMOutcome.ignoredHaproxy ≠ PMOutcome.forwarded ∧
    PMOutcome.ignoredKinesis ≠ PMOutcome.forwarded ∧
    PMOutcome.ignoredHaproxy ≠ PMOutcome.decodeFailed ∧
    PMOutcome.ignoredKinesis ≠ PMOutcome.decodeFailed := by
  refine ⟨?_, by decide, by decide, by decide, by decide⟩
  rw [← esIgnoreCheck_iff f]
  unfold processMessageES
  dsimp only
  cases hc : esIgnoreCheck f with
  | ignoredHaproxy => simp [hc]
  | ignoredKinesis => simp [hc]
  | typeAssertPanic => simp [hc]
  | passed => cases dropped <;> simp [hc]
